import Mathlib

/-!
Verification development for the rlok tree-walking interpreter
(crates `rlok_lib`, `rlok`).

The definitions below are a shallow embedding of the Rust sources:

* `rlok_lib/src/tokens.rs`      → `Rlok.TokenType`, `Rlok.Token`
* `rlok_lib/src/span.rs`        → `Rlok.Span`
* `rlok_lib/src/lit.rs`         → `Rlok.LitType`
* `rlok_lib/src/lox_callable.rs`→ `Rlok.LoxCallable`, `Rlok.LoxFunction`
* `rlok_lib/src/expression.rs`  → `Rlok.Expr`
* `rlok_lib/src/statement.rs`   → `Rlok.Statement`
* `rlok_lib/src/error_handler.rs` → `Rlok.RuntimeErr`, `Rlok.ParserErr`,
  `Rlok.ScannerErr`
* `rlok_lib/src/environment.rs` → `Rlok.Environment`
* `rlok_lib/src/interpreter.rs` → the `Rlok.Interp` namespace
* `rlok_lib/src/scanner.rs`     → the `Rlok.Scanner` namespace
* `rlok_lib/src/parser.rs`      → the `Rlok.LoxParser` namespace

Modelling conventions, fixed once for the whole file:

* Rust `f32` numbers are modelled as `Rat` (exact arithmetic; none of the
  verified claims depends on floating-point rounding).
* Rust `HashMap<String, LitType>` is modelled as an association list with
  insert-or-replace semantics; the only observations the source performs
  on it are `contains_key`, `get` and `insert`.
* Rust mutation of `self` is modelled by explicit state passing; `Result`
  plus the `?` operator is modelled by an outcome type threaded with the
  state (an error carries the state at the moment it was raised, exactly
  as the mutated `self` persists across a Rust early return).
* Loops and recursion through the heap (function values) are bounded by an
  explicit fuel argument; exhausting fuel yields the distinguished
  `noFuel` outcome, which no theorem below ever equates with a result of
  the program.
* Rust indexing/`unwrap` panics are modelled by a distinguished `panicked`
  outcome where a claim depends on them (scanner, parser).
-/

namespace Rlok

/-- TokenType from `rlok_lib/src/tokens.rs`. The four whitespace variants
referenced by `Parser::is_white_space` are included; the scanner never
produces them. -/
inductive TokenType where
  | LeftParen | RightParen | LeftBrace | RightBrace | Comma | Dot
  | Minus | Plus | Semicolon | Slash | Star
  | Bang | BangEqual | Equal | EqualEqual
  | Greater | GreaterEqual | Less | LessEqual
  | Ident | StringLit | NumberLit
  | AND | CLASS | ELSE | FALSE | FUN | FOR | IF | NIL | OR | PRINT
  | RETURN | SUPER | THIS | TRUE | VAR | WHILE
  | EOF
  | Space | CarriageReturn | Tab | NewLine
deriving DecidableEq, Repr

/-- Token from `rlok_lib/src/tokens.rs`: kind, lexeme, optional literal
payload, 1-based line number (`i32` modelled as `Int`). -/
structure Token where
  ty : TokenType
  lexeme : String
  literal : Option String
  line : Int
deriving DecidableEq, Repr

/-- Span from `rlok_lib/src/span.rs`: a pair of token indices. Evaluation
never branches on spans (they feed the diagnostic renderer only). -/
structure Span where
  first : Int
  last : Int
deriving DecidableEq, Repr

mutual

/-- LitType from `rlok_lib/src/lit.rs` (`Float(f32)` modelled as `Rat`). -/
inductive LitType where
  | float (f : Rat)
  | str (s : String)
  | bool (b : Bool)
  | callable (c : LoxCallable)
  | nil

/-- LoxCallable from `rlok_lib/src/lox_callable.rs`. -/
inductive LoxCallable where
  | function (f : LoxFunction)
  | clock (callee : String)

/-- LoxFunction from `rlok_lib/src/lox_callable.rs`: it stores only the
declaration statement and the callee name — no captured environment. -/
inductive LoxFunction where
  | mk (declaration : Option Statement) (callee : String)

/-- Expr from `rlok_lib/src/expression.rs` (constructor `logcial` keeps
the source's spelling of the `Logcial` variant). -/
inductive Expr where
  | binary (span : Span) (left : Expr) (operator : Token) (right : Expr)
  | grouping (span : Span) (expression : Expr)
  | literal (span : Span) (value : Option LitType)
  | unary (span : Span) (operator : Token) (right : Expr)
  | variable (span : Span) (name : Token)
  | assign (span : Span) (name : Token) (value : Expr)
  | logcial (span : Span) (left : Expr) (operator : Token) (right : Expr)
  | call (span : Span) (callee : Expr) (paren : Token) (arguments : List Expr)

/-- Statement from `rlok_lib/src/statement.rs` (`If` → `ifS`, `While` →
`whileS`, `Return` → `ret` because of Lean keywords). -/
inductive Statement where
  | expression (span : Span) (expr : Expr)
  | print (span : Span) (expr : Expr)
  | var (span : Span) (name : Token) (expression : Option Expr)
  | block (span : Span) (statements : List Statement)
  | ifS (span : Span) (condition : Expr) (thenBranch : Statement)
      (elseBranch : Option Statement)
  | whileS (span : Span) (condition : Expr) (body : Statement)
  | function (span : Span) (name : Token) (params : List Token)
      (body : List Statement)
  | ret (span : Span) (keyword : Token) (value : Expr)

end

/-- RuntimeError from `rlok_lib/src/error_handler.rs` (variant `Return` →
`ret`). -/
inductive RuntimeErr where
  | ret (value : LitType)
  | nativeFunctionError
  | incorrectArgumentCount (expected got : Nat)
  | notCallable (paren : Token)
  | invalidLiteral (e : Expr)
  | invalidGrouping (e : Expr)
  | righthandBoolorNil (e : Expr)
  | unaryExpects (e : Expr)
  | invalidUnary (e : Expr)
  | divideByZero (e : Expr)
  | invalidNumerical (e : Expr) (t : Token)
  | invalidStringConcat (e : Expr)
  | binaryTypeMismatch (e : Expr)
  | invalidBinaryExpr (e : Expr)
  | undefinedVariable (name : String) (span : String)
  | expressionNotVariable (e : Expr)
  | statementMissingExpression (s : Statement)
  | unexpectedStatement (s : Statement)
  | invalidAssignmentTarget (t : Token) (e : Expr)

/-- Association-list model of `HashMap<String, LitType>`: insert, replacing
an existing binding for the key (`HashMap::insert`). -/
def insertA : List (String × LitType) → String → LitType → List (String × LitType)
  | [], k, v => [(k, v)]
  | (k', v') :: t, k, v => if k' = k then (k, v) :: t else (k', v') :: insertA t k v

/-- Association-list model of `HashMap::get` (first binding of the key).
`contains_key` followed by `get` in the source is exactly a successful
`lookupA`. -/
def lookupA : List (String × LitType) → String → Option LitType
  | [], _ => none
  | (k', v') :: t, k => if k' = k then some v' else lookupA t k

/-- Environment from `rlok_lib/src/environment.rs`: a map of bindings plus
an `Option<Box<Environment>>` parent, cloned by value. The `Option` is
encoded by the two constructors — `base values` is
`Environment { values, enclosing: None }` and `link values enc` is
`Environment { values, enclosing: Some(Box::new(enc)) }`. -/
inductive Environment where
  | base (values : List (String × LitType))
  | link (values : List (String × LitType)) (enclosing : Environment)

/-- Projection for the `values` field. -/
def Environment.values : Environment → List (String × LitType)
  | .base v => v
  | .link v _ => v

/-- Projection for the `enclosing` field. -/
def Environment.enclosing : Environment → Option Environment
  | .base _ => none
  | .link _ e => some e

/-- `Environment::new`. -/
def Environment.new : Option Environment → Environment
  | none => .base []
  | some e => .link [] e

/-- `Environment::define`: always writes into the current scope. -/
def Environment.define : Environment → String → LitType → Environment
  | .base values, name, value => .base (insertA values name value)
  | .link values enc, name, value => .link (insertA values name value) enc

/-- `Environment::get`: the source checks `contains_key` and then `get`
(together: a successful lookup), else recurses into `enclosing`, else
errors with `UndefinedVariable(lexeme, span)`. -/
def Environment.get : Environment → Token → String → Except RuntimeErr (Option LitType)
  | .base values, token, span =>
    match lookupA values token.lexeme with
    | some val => .ok (some val)
    | none => .error (.undefinedVariable token.lexeme span)
  | .link values enc, token, span =>
    match lookupA values token.lexeme with
    | some val => .ok (some val)
    | none => enc.get token span

/-- `Environment::assign`: overwrite in the nearest scope that already
binds the name, else `UndefinedVariable`. Returns the updated chain. -/
def Environment.assign : Environment → Token → LitType → String → Except RuntimeErr Environment
  | .base values, name, value, span =>
    if (lookupA values name.lexeme).isSome then
      .ok (.base (insertA values name.lexeme value))
    else .error (.undefinedVariable name.lexeme span)
  | .link values enc, name, value, span =>
    if (lookupA values name.lexeme).isSome then
      .ok (.link (insertA values name.lexeme value) enc)
    else
      match enc.assign name value span with
      | .ok enc' => .ok (.link values enc')
      | .error e => .error e

/-- Arity of a `LoxFunction` (`lox_callable.rs::arity`): the parameter
count of the stored `Function` declaration, 0 otherwise. -/
def LoxFunction.arity : LoxFunction → Nat
  | .mk (some (.function _ _ params _)) _ => params.length
  | .mk _ _ => 0

namespace Interp

/-- Outcome of one interpreter operation: `Ok(value)`, a propagating
`RuntimeError` (raised via `Err`/`?` in the source), or fuel exhaustion
(an artifact of the embedding, never identified with program behaviour). -/
inductive EOut (α : Type) where
  | ok (a : α)
  | err (e : RuntimeErr)
  | noFuel

/-- The interpreter state (`Interpreter` in `interpreter.rs`): `globals`
and `environment` (independent clones after `build()`), plus an output
trace recording the arguments of `print_lit`, and the wall-clock value the
native `clock` would return (`SystemTime` modelled as a state field). The
`parser` field is only consulted for diagnostic span strings and is `None`
unless `run()` is used; `is_repl` is `false` in the modelled mode. -/
structure InterpS where
  globals : Environment
  environment : Environment
  printed : List LitType
  now : Rat

/-- `Interpreter::get_span` for the modelled states (`parser == None`):
the diagnostic string is `"NO SPAN"`. No interpreter behaviour branches
on this string. -/
def getSpan (_sp : Span) : String := "NO SPAN"

/-- `Interpreter::is_truthy` from `interpreter.rs` lines 285–305: numbers
are truthy iff strictly positive, strings iff non-empty, booleans are
themselves, `Nil` is falsy, and the catch-all arm (callables) is falsy. -/
def isTruthy : LitType → Bool
  | .float flt => decide (0 < flt)
  | .str str => decide (0 < str.length)
  | .bool bl => bl
  | .nil => false
  | _ => false

/-- `Interpreter::literal_expr`: unwrap a `Literal`'s payload, else
`InvalidLiteral`. -/
def literalExpr : Expr → EOut LitType
  | .literal _ (some val) => .ok val
  | e => .err (.invalidLiteral e)

/-- `Interpreter::var_expr`: look the name up in the current environment
chain. -/
def varExpr (s : InterpS) : Expr → EOut LitType
  | .variable sp name =>
    match s.environment.get name (getSpan sp) with
    | .ok (some val) => .ok val
    | .ok none => .err (.undefinedVariable name.lexeme (getSpan sp))
    | .error e => .err e
  | e => .err (.expressionNotVariable e)

/-- The pure combination step of `Interpreter::binary_expr` (lines
197–229), applied after both operands are evaluated: two numbers get the
numeric operators (`!=` falls into the `InvalidNumerical` catch-all; `/`
by zero is `DivideByZero`), two strings get only `+`, anything else is
`BinaryTypeMismatch`. -/
def binaryOp (e : Expr) (operator : Token) (l r : LitType) : EOut LitType :=
  match r, l with
  | .float rf, .float lf =>
    match operator.ty with
    | .Plus => .ok (.float (lf + rf))
    | .Minus => .ok (.float (lf - rf))
    | .Slash => if rf = 0 then .err (.divideByZero e) else .ok (.float (lf / rf))
    | .Star => .ok (.float (lf * rf))
    | .Less => .ok (.bool (decide (lf < rf)))
    | .LessEqual => .ok (.bool (decide (lf ≤ rf)))
    | .Greater => .ok (.bool (decide (rf < lf)))
    | .GreaterEqual => .ok (.bool (decide (rf ≤ lf)))
    | .EqualEqual => .ok (.bool (decide (lf = rf)))
    | _ => .err (.invalidNumerical e operator)
  | .str rs, .str ls =>
    match operator.ty with
    | .Plus => .ok (.str (ls ++ rs))
    | _ => .err (.invalidStringConcat e)
  | _, _ => .err (.binaryTypeMismatch e)

/-- `Interpreter::function_statement`: wrap the declaration in a
`LoxFunction` (carrying no environment) and bind it under its name in the
current environment. -/
def functionStatement (s : InterpS) (name : Token) (params : List Token)
    (body : List Statement) (span : Span) : InterpS :=
  let stmt := Statement.function span name params body
  let func := LitType.callable (.function (.mk (some stmt) name.lexeme))
  { s with environment := s.environment.define name.lexeme func }

/-- `Clock::call`: returns the wall clock as a number (the success path of
`SystemTime::now().duration_since(UNIX_EPOCH)`). -/
def clockCall (s : InterpS) : EOut LitType := .ok (.float s.now)

mutual

/-- `Interpreter::evaluate_expr`: dispatch on the expression variant. -/
def evaluateExpr : Nat → InterpS → Expr → EOut LitType × InterpS
  | 0, s, _ => (.noFuel, s)
  | n + 1, s, e =>
    match e with
    | .binary .. => binaryExpr n s e
    | .grouping .. => groupingExpr n s e
    | .unary .. => unaryExpr n s e
    | .literal .. => (literalExpr e, s)
    | .variable .. => (varExpr s e, s)
    | .assign sp name value => assignExpr n s name value sp
    | .logcial _ left operator right => logicalExpr n s left operator.ty right
    | .call _ callee paren arguments => callExpr n s callee paren arguments

/-- `Interpreter::grouping_expr`. -/
def groupingExpr : Nat → InterpS → Expr → EOut LitType × InterpS
  | 0, s, _ => (.noFuel, s)
  | n + 1, s, e =>
    match e with
    | .grouping _ expression => evaluateExpr n s expression
    | _ => (.err (.invalidGrouping e), s)

/-- `Interpreter::unary_expr`: evaluate the operand, then `-` requires a
number (else `InvalidUnary`); `!` accepts only `Bool` (negated) or `Nil`
(true), else `RighthandBoolorNil`; other operators are `UnaryExpects`. -/
def unaryExpr : Nat → InterpS → Expr → EOut LitType × InterpS
  | 0, s, _ => (.noFuel, s)
  | n + 1, s, e =>
    match e with
    | .unary _ operator right =>
      match evaluateExpr n s right with
      | (.ok r, s1) =>
        match operator.ty with
        | .Minus =>
          match r with
          | .float f => (.ok (.float (-f)), s1)
          | _ => (.err (.invalidUnary e), s1)
        | .Bang =>
          match r with
          | .bool b => (.ok (.bool (!b)), s1)
          | .nil => (.ok (.bool true), s1)
          | _ => (.err (.righthandBoolorNil e), s1)
        | _ => (.err (.unaryExpects e), s1)
      | (.err er, s1) => (.err er, s1)
      | (.noFuel, s1) => (.noFuel, s1)
    | _ => (.err (.invalidUnary e), s)

/-- `Interpreter::binary_expr`: evaluate left, then right, then apply
`binaryOp`. -/
def binaryExpr : Nat → InterpS → Expr → EOut LitType × InterpS
  | 0, s, _ => (.noFuel, s)
  | n + 1, s, e =>
    match e with
    | .binary _ left operator right =>
      match evaluateExpr n s left with
      | (.ok l, s1) =>
        match evaluateExpr n s1 right with
        | (.ok r, s2) => (binaryOp e operator l r, s2)
        | (.err er, s2) => (.err er, s2)
        | (.noFuel, s2) => (.noFuel, s2)
      | (.err er, s1) => (.err er, s1)
      | (.noFuel, s1) => (.noFuel, s1)
    | _ => (.err (.invalidBinaryExpr e), s)

/-- `Interpreter::logical_expr`: evaluate the left operand; `or` returns
it when truthy, any other operator (the `and` path) returns it when falsy;
otherwise the right operand is evaluated and returned. -/
def logicalExpr : Nat → InterpS → Expr → TokenType → Expr → EOut LitType × InterpS
  | 0, s, _, _, _ => (.noFuel, s)
  | n + 1, s, left, operator, right =>
    match evaluateExpr n s left with
    | (.ok l, s1) =>
      if operator = TokenType.OR then
        if isTruthy l then (.ok l, s1) else evaluateExpr n s1 right
      else
        if !(isTruthy l) then (.ok l, s1) else evaluateExpr n s1 right
    | (.err er, s1) => (.err er, s1)
    | (.noFuel, s1) => (.noFuel, s1)

/-- `Interpreter::assign_expr`: a `Literal` right side is assigned
directly (a `Literal` without payload is `InvalidAssignmentTarget`); any
other right side is evaluated first; the assigned value is returned. -/
def assignExpr : Nat → InterpS → Token → Expr → Span → EOut LitType × InterpS
  | 0, s, _, _, _ => (.noFuel, s)
  | n + 1, s, name, value, span =>
    match value with
    | .literal _ (some val) =>
      match s.environment.assign name val (getSpan span) with
      | .ok env' => (.ok val, { s with environment := env' })
      | .error er => (.err er, s)
    | .literal _ none => (.err (.invalidAssignmentTarget name value), s)
    | _ =>
      match evaluateExpr n s value with
      | (.ok val, s1) =>
        match s1.environment.assign name val (getSpan span) with
        | .ok env' => (.ok val, { s1 with environment := env' })
        | .error er => (.err er, s1)
      | (.err er, s1) => (.err er, s1)
      | (.noFuel, s1) => (.noFuel, s1)

/-- `Interpreter::call_expr`: evaluate the callee, then every argument
left to right into a vector the source never reads, then check arity and
invoke the callable (which re-evaluates the argument expressions); a
non-callable callee is `NotCallable`. -/
def callExpr : Nat → InterpS → Expr → Token → List Expr → EOut LitType × InterpS
  | 0, s, _, _, _ => (.noFuel, s)
  | n + 1, s, callee, paren, arguments =>
    match evaluateExpr n s callee with
    | (.ok calleeV, s1) =>
      match evalArgs n s1 arguments with
      | (.ok _args, s2) =>
        match calleeV with
        | .callable (.function func) =>
          if arguments.length ≠ func.arity then
            (.err (.incorrectArgumentCount func.arity arguments.length), s2)
          else
            funcCall n s2 func arguments
        | .callable (.clock _) =>
          if arguments.length ≠ 0 then
            (.err (.incorrectArgumentCount 0 arguments.length), s2)
          else
            (clockCall s2, s2)
        | _ => (.err (.notCallable paren), s2)
      | (.err er, s2) => (.err er, s2)
      | (.noFuel, s2) => (.noFuel, s2)
    | (.err er, s1) => (.err er, s1)
    | (.noFuel, s1) => (.noFuel, s1)

/-- The argument loop of `Interpreter::call_expr`: evaluate each argument
expression left to right. -/
def evalArgs : Nat → InterpS → List Expr → EOut (List LitType) × InterpS
  | 0, s, _ => (.noFuel, s)
  | _ + 1, s, [] => (.ok [], s)
  | n + 1, s, a :: rest =>
    match evaluateExpr n s a with
    | (.ok v, s1) =>
      match evalArgs n s1 rest with
      | (.ok vs, s2) => (.ok (v :: vs), s2)
      | (.err er, s2) => (.err er, s2)
      | (.noFuel, s2) => (.noFuel, s2)
    | (.err er, s1) => (.err er, s1)
    | (.noFuel, s1) => (.noFuel, s1)

/-- `LoxFunction::call`: build a frame environment whose parent is the
interpreter's *current* environment, re-evaluate each argument expression
to bind the parameters, run the body through `block_statement`, and yield
`Nil` if the body produced no value (the dead `Return`-declaration branch
of the source is kept). -/
def funcCall : Nat → InterpS → LoxFunction → List Expr → EOut LitType × InterpS
  | 0, s, _, _ => (.noFuel, s)
  | n + 1, s, func, arguments =>
    let environment := Environment.new (some s.environment)
    match func with
    | .mk (some declaration) _ =>
      match declaration with
      | .function _ _name params body =>
        match bindParams n s environment (params.zip arguments) with
        | (.ok env', s1) =>
          match blockStatement n s1 body env' with
          | (.ok (some result), s2) => (.ok result, s2)
          | (.ok none, s2) => (.ok .nil, s2)
          | (.err er, s2) => (.err er, s2)
          | (.noFuel, s2) => (.noFuel, s2)
        | (.err er, s1) => (.err er, s1)
        | (.noFuel, s1) => (.noFuel, s1)
      | .ret _ _ value => evaluateExpr n s value
      | _ => (.ok .nil, s)
    | .mk none _ => (.ok .nil, s)

/-- The parameter-binding loop of `LoxFunction::call`: each argument
expression is evaluated (in the caller's current environment) and bound in
the new frame. Call sites guarantee `params` and `arguments` have equal
length (the arity check), so the source's `arguments[index]` is total and
is modelled by the zip. -/
def bindParams : Nat → InterpS → Environment → List (Token × Expr) → EOut Environment × InterpS
  | 0, s, _, _ => (.noFuel, s)
  | _ + 1, s, env, [] => (.ok env, s)
  | n + 1, s, env, (param, arg) :: rest =>
    match evaluateExpr n s arg with
    | (.ok v, s1) => bindParams n s1 (env.define param.lexeme v) rest
    | (.err er, s1) => (.err er, s1)
    | (.noFuel, s1) => (.noFuel, s1)

/-- `Interpreter::evaluate_statement`: dispatch on the statement variant.
An expression statement yields its value; `print` records the value on the
output trace; `Block` runs in a fresh child of the current environment. -/
def evaluateStatement : Nat → InterpS → Statement → EOut (Option LitType) × InterpS
  | 0, s, _ => (.noFuel, s)
  | n + 1, s, stmt =>
    match stmt with
    | .print _ expression =>
      match evaluateExpr n s expression with
      | (.ok value, s1) => (.ok none, { s1 with printed := s1.printed ++ [value] })
      | (.err er, s1) => (.err er, s1)
      | (.noFuel, s1) => (.noFuel, s1)
    | .expression _ expression =>
      match evaluateExpr n s expression with
      | (.ok v, s1) => (.ok (some v), s1)
      | (.err er, s1) => (.err er, s1)
      | (.noFuel, s1) => (.noFuel, s1)
    | .var .. =>
      match varStatement n s stmt with
      | (.ok _, s1) => (.ok none, s1)
      | (.err er, s1) => (.err er, s1)
      | (.noFuel, s1) => (.noFuel, s1)
    | .block _ statements =>
      blockStatement n s statements (Environment.new (some s.environment))
    | .ifS _ condition thenBranch elseBranch =>
      ifStatement n s condition thenBranch elseBranch
    | .whileS _ condition body => whileStatement n s condition body
    | .function sp name params body => (.ok none, functionStatement s name params body sp)
    | .ret _ keyword value =>
      match returnStatement n s keyword value with
      | (.ok v, s1) => (.ok (some v), s1)
      | (.err er, s1) => (.err er, s1)
      | (.noFuel, s1) => (.noFuel, s1)

/-- `Interpreter::var_statement`: evaluate the initializer and bind it in
the current environment. -/
def varStatement : Nat → InterpS → Statement → EOut Unit × InterpS
  | 0, s, _ => (.noFuel, s)
  | n + 1, s, stmt =>
    match stmt with
    | .var _ name (some expr) =>
      match evaluateExpr n s expr with
      | (.ok value, s1) =>
        (.ok (), { s1 with environment := s1.environment.define name.lexeme value })
      | (.err er, s1) => (.err er, s1)
      | (.noFuel, s1) => (.noFuel, s1)
    | .var _ _ none => (.err (.statementMissingExpression stmt), s)
    | _ => (.err (.unexpectedStatement stmt), s)

/-- `Interpreter::block_statement`: overwrite the current environment with
the supplied one, run each statement in it (discarding statement values),
and answer `None`. The previous environment is *not* restored. -/
def blockStatement : Nat → InterpS → List Statement → Environment → EOut (Option LitType) × InterpS
  | 0, s, _, _ => (.noFuel, s)
  | n + 1, s, statements, environment =>
    evalBlockList n { s with environment := environment } statements

/-- The statement loop of `Interpreter::block_statement`. -/
def evalBlockList : Nat → InterpS → List Statement → EOut (Option LitType) × InterpS
  | 0, s, _ => (.noFuel, s)
  | _ + 1, s, [] => (.ok none, s)
  | n + 1, s, stmt :: rest =>
    match evaluateStatement n s stmt with
    | (.ok _, s1) => evalBlockList n s1 rest
    | (.err er, s1) => (.err er, s1)
    | (.noFuel, s1) => (.noFuel, s1)

/-- `Interpreter::if_statement`. -/
def ifStatement : Nat → InterpS → Expr → Statement → Option Statement → EOut (Option LitType) × InterpS
  | 0, s, _, _, _ => (.noFuel, s)
  | n + 1, s, condition, thenBranch, elseBranch =>
    match evaluateExpr n s condition with
    | (.ok c, s1) =>
      if isTruthy c then evaluateStatement n s1 thenBranch
      else
        match elseBranch with
        | some els => evaluateStatement n s1 els
        | none => (.ok none, s1)
    | (.err er, s1) => (.err er, s1)
    | (.noFuel, s1) => (.noFuel, s1)

/-- `Interpreter::while_statement`: while the condition is truthy run the
body; if the body yields a value the loop returns it immediately. -/
def whileStatement : Nat → InterpS → Expr → Statement → EOut (Option LitType) × InterpS
  | 0, s, _, _ => (.noFuel, s)
  | n + 1, s, condition, body =>
    match evaluateExpr n s condition with
    | (.ok c, s1) =>
      if isTruthy c then
        match evaluateStatement n s1 body with
        | (.ok (some out), s2) => (.ok (some out), s2)
        | (.ok none, s2) => whileStatement n s2 condition body
        | (.err er, s2) => (.err er, s2)
        | (.noFuel, s2) => (.noFuel, s2)
      else (.ok none, s1)
    | (.err er, s1) => (.err er, s1)
    | (.noFuel, s1) => (.noFuel, s1)

/-- `Interpreter::return_statement`: evaluate the value and raise it as
the `RuntimeError::Return` signal. -/
def returnStatement : Nat → InterpS → Token → Expr → EOut LitType × InterpS
  | 0, s, _, _ => (.noFuel, s)
  | n + 1, s, _keyword, value =>
    match evaluateExpr n s value with
    | (.ok v, s1) => (.err (.ret v), s1)
    | (.err er, s1) => (.err er, s1)
    | (.noFuel, s1) => (.noFuel, s1)

end

/-- `Interpreter::build`: a fresh global environment seeded with the
native `clock`, used as both `globals` and `environment`. -/
def build : InterpS :=
  let globals := (Environment.new none).define "clock" (.callable (.clock "clock"))
  { globals := globals, environment := globals, printed := [], now := 0 }

/-- Result of `Interpreter::run`'s statement loop: the final state and the
runtime errors printed to stderr along the way (`run` reports each failed
statement and continues with the next one), or fuel exhaustion. -/
inductive RunRes where
  | ok (s : InterpS) (errs : List RuntimeErr)
  | noFuel

/-- The statement loop of `Interpreter::run` in file mode (`is_repl ==
false`): statement values are discarded, runtime errors are collected and
execution continues. -/
def runStmts (fuel : Nat) : InterpS → List Statement → RunRes
  | s, [] => .ok s []
  | s, stmt :: rest =>
    match evaluateStatement fuel s stmt with
    | (.ok _, s1) => runStmts fuel s1 rest
    | (.err e, s1) =>
      match runStmts fuel s1 rest with
      | .ok s2 es => .ok s2 (e :: es)
      | .noFuel => .noFuel
    | (.noFuel, _) => .noFuel

/-- Observation helper: the final interpreter state of a run, if it did
not run out of fuel. -/
def RunRes.stateOf : RunRes → Option InterpS
  | .ok s _ => some s
  | .noFuel => none

/-- Observation helper: the runtime errors a run reported to stderr. -/
def RunRes.errsOf : RunRes → Option (List RuntimeErr)
  | .ok _ es => some es
  | .noFuel => none

end Interp

/-- ScannerError from `rlok_lib/src/error_handler.rs`. -/
inductive ScannerErr where
  | unexpectedTokenError (line : Int) (message : String)
  | stringError (line : Int) (message : String)
deriving DecidableEq, Repr

namespace Scanner

/-- Outcome of a scanner operation: success, a `ScannerError`, a Rust
panic (out-of-range `unwrap` or a byte slice not on a character
boundary), or fuel exhaustion. -/
inductive SOut (α : Type) where
  | ok (a : α)
  | err (e : ScannerErr)
  | panicked
  | noFuel
deriving Repr

/-- Scanner state (`scanner.rs::Scanner` without the fixed `source` and
`keywords` fields): `start`/`current` are the `i32` cursors (always
non-negative), `line` the 1-based line counter. The source is modelled as
its character sequence; `source.len()` in Rust is the *byte* length, while
`chars().nth(i)` indexes *characters* — the source mixes the two, which
the model preserves via `byteLen` vs. list indexing. -/
structure SState where
  start : Nat
  current : Nat
  line : Int
  tokens : List Token
deriving Repr

/-- The UTF-8 byte length of the source (`String::len`). -/
def byteLen (source : List Char) : Nat := (source.map Char.utf8Size).sum

/-- `Scanner::is_end`: compares the cursor against the *byte* length. -/
def isEnd (source : List Char) (st : SState) : Bool :=
  decide (byteLen source ≤ st.current)

/-- `Scanner::advance`: `chars().nth(current).unwrap()`, then increment. -/
def advance (source : List Char) (st : SState) : SOut Char × SState :=
  match source.get? st.current with
  | some c => (.ok c, { st with current := st.current + 1 })
  | none => (.panicked, st)

/-- Drop exactly `a` bytes from the front; `none` when `a` is not a
character boundary or exceeds the text. -/
def dropBytes : List Char → Nat → Option (List Char)
  | cs, 0 => some cs
  | [], _ + 1 => none
  | c :: rest, n + 1 =>
    if c.utf8Size ≤ n + 1 then dropBytes rest (n + 1 - c.utf8Size) else none

/-- Take exactly `n` bytes from the front; `none` when `n` is not a
character boundary or exceeds the text. -/
def takeBytes : List Char → Nat → Option (List Char)
  | _, 0 => some []
  | [], _ + 1 => none
  | c :: rest, n + 1 =>
    if c.utf8Size ≤ n + 1 then (takeBytes rest (n + 1 - c.utf8Size)).map (c :: ·) else none

/-- Rust byte slicing `&source[a..b]`: panics (here `none`) when `a > b`,
when a bound exceeds the byte length, or when a bound falls inside a
multi-byte character. -/
def sliceBytes (cs : List Char) (a b : Nat) : Option String :=
  if a ≤ b then
    match dropBytes cs a with
    | some cs' => (takeBytes cs' (b - a)).map (fun l => String.mk l)
    | none => none
  else none

/-- `Scanner::add_token`: lexeme is the byte slice `source[start..current]`. -/
def addToken (source : List Char) (st : SState) (ty : TokenType) : SOut Unit × SState :=
  match sliceBytes source st.start st.current with
  | some text => (.ok (), { st with tokens := st.tokens ++ [⟨ty, text, none, st.line⟩] })
  | none => (.panicked, st)

/-- `Scanner::add_token_val`: like `add_token` but with a literal payload. -/
def addTokenVal (source : List Char) (st : SState) (ty : TokenType) (value : String) :
    SOut Unit × SState :=
  match sliceBytes source st.start st.current with
  | some text => (.ok (), { st with tokens := st.tokens ++ [⟨ty, text, some value, st.line⟩] })
  | none => (.panicked, st)

/-- `Scanner::match_char`. -/
def matchChar (source : List Char) (st : SState) (expected : Char) : SOut Bool × SState :=
  if isEnd source st then (.ok false, st)
  else
    match source.get? st.current with
    | some c =>
      if c ≠ expected then (.ok false, st)
      else (.ok true, { st with current := st.current + 1 })
    | none => (.panicked, st)

/-- `Scanner::peek`: `'\0'` at the end, otherwise
`chars().nth(current).unwrap()` (which panics when the byte-based
`is_end` is false but the character index is already past the text). -/
def peek (source : List Char) (st : SState) : SOut Char :=
  if isEnd source st then .ok '\x00'
  else
    match source.get? st.current with
    | some c => .ok c
    | none => .panicked

/-- `Scanner::peek_next`. -/
def peekNext (source : List Char) (st : SState) : SOut Char :=
  if byteLen source ≤ st.current + 1 then .ok '\x00'
  else
    match source.get? (st.current + 1) with
    | some c => .ok c
    | none => .panicked

/-- `Scanner::is_digit`. -/
def isDigit (c : Char) : Bool := '0' ≤ c && c ≤ '9'

/-- `Scanner::is_alpha`. -/
def isAlpha (c : Char) : Bool :=
  ('a' ≤ c && c ≤ 'z') || ('A' ≤ c && c ≤ 'Z') || c = '_'

/-- `Scanner::is_alpha_numeric`. -/
def isAlphaNumeric (c : Char) : Bool := isAlpha c || isDigit c

/-- The `keywords` map built by `Scanner::build`. -/
def keywordTy : String → Option TokenType
  | "and" => some .AND
  | "class" => some .CLASS
  | "else" => some .ELSE
  | "false" => some .FALSE
  | "for" => some .FOR
  | "fun" => some .FUN
  | "if" => some .IF
  | "nil" => some .NIL
  | "or" => some .OR
  | "print" => some .PRINT
  | "return" => some .RETURN
  | "super" => some .SUPER
  | "this" => some .THIS
  | "true" => some .TRUE
  | "var" => some .VAR
  | "while" => some .WHILE
  | _ => none

/-- The scan loop of `Scanner::string`: advance (counting newlines) until
a closing quote or the end of input. -/
def stringAux (source : List Char) : Nat → SState → SOut Unit × SState
  | 0, st => (.noFuel, st)
  | n + 1, st =>
    match peek source st with
    | .ok c =>
      if c ≠ '"' && !(isEnd source st) then
        let st1 := if c = '\n' then { st with line := st.line + 1 } else st
        match advance source st1 with
        | (.ok _, st2) => stringAux source n st2
        | (.err e, st2) => (.err e, st2)
        | (.panicked, st2) => (.panicked, st2)
        | (.noFuel, st2) => (.noFuel, st2)
      else (.ok (), st)
    | .err e => (.err e, st)
    | .panicked => (.panicked, st)
    | .noFuel => (.noFuel, st)

/-- `Scanner::string`: scan to the closing quote; unterminated at EOF is
a `StringError`; the stored literal is the byte slice between the quotes. -/
def scanString (source : List Char) (fuel : Nat) (st : SState) : SOut Unit × SState :=
  match stringAux source fuel st with
  | (.ok _, st1) =>
    if isEnd source st1 then
      (.err (.stringError st1.line "Unterminated string."), st1)
    else
      match advance source st1 with
      | (.ok _, st2) =>
        match sliceBytes source (st2.start + 1) (st2.current - 1) with
        | some value => addTokenVal source st2 .StringLit value
        | none => (.panicked, st2)
      | (.err e, st2) => (.err e, st2)
      | (.panicked, st2) => (.panicked, st2)
      | (.noFuel, st2) => (.noFuel, st2)
  | other => other

/-- The digit loop shared by `Scanner::number`. -/
def digitsAux (source : List Char) : Nat → SState → SOut Unit × SState
  | 0, st => (.noFuel, st)
  | n + 1, st =>
    match peek source st with
    | .ok c =>
      if isDigit c then
        match advance source st with
        | (.ok _, st1) => digitsAux source n st1
        | (.err e, st1) => (.err e, st1)
        | (.panicked, st1) => (.panicked, st1)
        | (.noFuel, st1) => (.noFuel, st1)
      else (.ok (), st)
    | .err e => (.err e, st)
    | .panicked => (.panicked, st)
    | .noFuel => (.noFuel, st)

/-- `Scanner::number`: integer digits, then an optional `.` followed by at
least one digit; lexeme and literal are the byte slice of the number. -/
def scanNumber (source : List Char) (fuel : Nat) (st : SState) : SOut Unit × SState :=
  match digitsAux source fuel st with
  | (.ok _, st1) =>
    let afterDot : SOut Unit × SState :=
      match peek source st1, peekNext source st1 with
      | .ok c, .ok c' =>
        if c = '.' && isDigit c' then
          match advance source st1 with
          | (.ok _, st2) => digitsAux source fuel st2
          | (.err e, st2) => (.err e, st2)
          | (.panicked, st2) => (.panicked, st2)
          | (.noFuel, st2) => (.noFuel, st2)
        else (.ok (), st1)
      | .panicked, _ => (.panicked, st1)
      | _, .panicked => (.panicked, st1)
      | _, _ => (.ok (), st1)
    match afterDot with
    | (.ok _, st2) =>
      match sliceBytes source st2.start st2.current with
      | some value => addTokenVal source st2 .NumberLit value
      | none => (.panicked, st2)
    | other => other
  | other => other

/-- `Scanner::identifier`: consume the alphanumeric tail, then emit the
keyword kind when the lexeme is reserved, else `Ident`. -/
def scanIdentifier (source : List Char) (fuel : Nat) (st : SState) : SOut Unit × SState :=
  let rec loop : Nat → SState → SOut Unit × SState
    | 0, st' => (.noFuel, st')
    | n + 1, st' =>
      match peek source st' with
      | .ok c =>
        if isAlphaNumeric c then
          match advance source st' with
          | (.ok _, st1) => loop n st1
          | (.err e, st1) => (.err e, st1)
          | (.panicked, st1) => (.panicked, st1)
          | (.noFuel, st1) => (.noFuel, st1)
        else (.ok (), st')
      | .err e => (.err e, st')
      | .panicked => (.panicked, st')
      | .noFuel => (.noFuel, st')
  match loop fuel st with
  | (.ok _, st1) =>
    match sliceBytes source st1.start st1.current with
    | some value =>
      match keywordTy value with
      | some t => addToken source st1 t
      | none => addToken source st1 .Ident
    | none => (.panicked, st1)
  | other => other

/-- The comment loop of `Scanner::scan_token`'s `/` branch. -/
def commentAux (source : List Char) : Nat → SState → SOut Unit × SState
  | 0, st => (.noFuel, st)
  | n + 1, st =>
    match peek source st with
    | .ok c =>
      if c ≠ '\n' && !(isEnd source st) then
        match advance source st with
        | (.ok _, st1) => commentAux source n st1
        | (.err e, st1) => (.err e, st1)
        | (.panicked, st1) => (.panicked, st1)
        | (.noFuel, st1) => (.noFuel, st1)
      else (.ok (), st)
    | .err e => (.err e, st)
    | .panicked => (.panicked, st)
    | .noFuel => (.noFuel, st)

/-- `Scanner::scan_token`: one token (or skipped whitespace/comment). -/
def scanToken (source : List Char) (fuel : Nat) (st : SState) : SOut Unit × SState :=
  match advance source st with
  | (.ok c, st1) =>
    match c with
    | '(' => addToken source st1 .LeftParen
    | ')' => addToken source st1 .RightParen
    | '{' => addToken source st1 .LeftBrace
    | '}' => addToken source st1 .RightBrace
    | ',' => addToken source st1 .Comma
    | '.' => addToken source st1 .Dot
    | '-' => addToken source st1 .Minus
    | '+' => addToken source st1 .Plus
    | ';' => addToken source st1 .Semicolon
    | '*' => addToken source st1 .Star
    | '!' =>
      match matchChar source st1 '=' with
      | (.ok true, st2) => addToken source st2 .BangEqual
      | (.ok false, st2) => addToken source st2 .Bang
      | (.err e, st2) => (.err e, st2)
      | (.panicked, st2) => (.panicked, st2)
      | (.noFuel, st2) => (.noFuel, st2)
    | '=' =>
      match matchChar source st1 '=' with
      | (.ok true, st2) => addToken source st2 .EqualEqual
      | (.ok false, st2) => addToken source st2 .Equal
      | (.err e, st2) => (.err e, st2)
      | (.panicked, st2) => (.panicked, st2)
      | (.noFuel, st2) => (.noFuel, st2)
    | '<' =>
      match matchChar source st1 '=' with
      | (.ok true, st2) => addToken source st2 .LessEqual
      | (.ok false, st2) => addToken source st2 .Less
      | (.err e, st2) => (.err e, st2)
      | (.panicked, st2) => (.panicked, st2)
      | (.noFuel, st2) => (.noFuel, st2)
    | '>' =>
      match matchChar source st1 '=' with
      | (.ok true, st2) => addToken source st2 .GreaterEqual
      | (.ok false, st2) => addToken source st2 .Greater
      | (.err e, st2) => (.err e, st2)
      | (.panicked, st2) => (.panicked, st2)
      | (.noFuel, st2) => (.noFuel, st2)
    | '/' =>
      match matchChar source st1 '/' with
      | (.ok true, st2) => commentAux source fuel st2
      | (.ok false, st2) => addToken source st2 .Slash
      | (.err e, st2) => (.err e, st2)
      | (.panicked, st2) => (.panicked, st2)
      | (.noFuel, st2) => (.noFuel, st2)
    | '"' => scanString source fuel st1
    | ' ' => (.ok (), st1)
    | '\r' => (.ok (), st1)
    | '\t' => (.ok (), st1)
    | '\n' => (.ok (), { st1 with line := st1.line + 1 })
    | other =>
      if isDigit other then scanNumber source fuel st1
      else if isAlpha other then scanIdentifier source fuel st1
      else (.err (.unexpectedTokenError st1.line "Unexpected token"), st1)
  | (.err e, st1) => (.err e, st1)
  | (.panicked, st1) => (.panicked, st1)
  | (.noFuel, st1) => (.noFuel, st1)

/-- The loop of `Scanner::scan_tokens`: scan until the byte-length-based
`is_end`, then append the `EOF` token and return the token list. -/
def scanTokensAux (source : List Char) : Nat → SState → SOut (List Token) × SState
  | 0, st => (.noFuel, st)
  | n + 1, st =>
    if !(isEnd source st) then
      let st1 := { st with start := st.current }
      match scanToken source n st1 with
      | (.ok _, st2) => scanTokensAux source n st2
      | (.err e, st2) => (.err e, st2)
      | (.panicked, st2) => (.panicked, st2)
      | (.noFuel, st2) => (.noFuel, st2)
    else
      let st2 := { st with tokens := st.tokens ++ [⟨.EOF, "", none, st.line⟩] }
      (.ok st2.tokens, st2)

/-- `Scanner::build` followed by `Scanner::scan_tokens`. The fuel
`4 * byteLen + 16` dominates every loop (each loop iteration advances the
cursor, which `is_end` bounds by the byte length). -/
def scan (source : List Char) : SOut (List Token) :=
  (scanTokensAux source (4 * byteLen source + 16) ⟨0, 0, 1, []⟩).1

end Scanner

/-- ParserError from `rlok_lib/src/error_handler.rs` (the constructor
`varDeclartionError` keeps the source's spelling). -/
inductive ParserErr where
  | maxArguments (t : Token)
  | whileMissingCondition (t : Token)
  | whileMissingBody (e : Expr)
  | logicAndMissingRight (e : Expr)
  | logicOrMissingRight (e : Expr)
  | missingIfCondition (t : Token)
  | missingThenBranch (e : Expr)
  | unexpectedAssignmentTarget (t : Token)
  | invalidAssignmentTarget (t : Token)
  | expressionNoExpression (t : Token)
  | printNoExpression (t : Token)
  | varDeclartionError
  | varMissingExpr (t : Token)
  | primaryTokenError (line : Int) (location : String) (message : String)
  | consumeTokenError (line : Int) (location : String) (message : String)

namespace LoxParser

/-- Outcome of a parser operation: success, a `ParserError`, a Rust panic
(out-of-bounds `tokens[i]` indexing or a failed `unwrap`), or fuel
exhaustion. -/
inductive POut (α : Type) where
  | ok (a : α)
  | err (e : ParserErr)
  | panicked
  | noFuel

/-- The parser monad: the fixed token vector plus the mutable `current`
cursor (`i32` modelled as `Int`); short-circuiting on error, panic and
fuel exhaustion models `Result` with `?`. -/
def PM (α : Type) : Type := List Token → Int → POut α × Int

instance : Monad PM where
  pure a := fun _ c => (.ok a, c)
  bind x f := fun ts c =>
    match x ts c with
    | (.ok a, c') => f a ts c'
    | (.err e, c') => (.err e, c')
    | (.panicked, c') => (.panicked, c')
    | (.noFuel, c') => (.noFuel, c')

/-- Read the cursor. -/
def getCur : PM Int := fun _ c => (.ok c, c)

/-- Write the cursor. -/
def setCur (c' : Int) : PM Unit := fun _ _ => (.ok (), c')

/-- Read the token vector. -/
def getTokens : PM (List Token) := fun ts c => (.ok ts, c)

/-- Raise a `ParserError` (Rust `Err(...)?`). -/
def throwP {α : Type} (e : ParserErr) : PM α := fun _ c => (.err e, c)

/-- A Rust panic. -/
def panicP {α : Type} : PM α := fun _ c => (.panicked, c)

/-- Fuel exhaustion. -/
def noFuelP {α : Type} : PM α := fun _ c => (.noFuel, c)

/-- Rust's `let _ = <fallible call>;` *without* `?`: the `Result` is
dropped, so an error is swallowed (panics and fuel exhaustion still
propagate). -/
def tryP {α : Type} (x : PM α) : PM Unit := fun ts c =>
  match x ts c with
  | (.ok _, c') => (.ok (), c')
  | (.err _, c') => (.ok (), c')
  | (.panicked, c') => (.panicked, c')
  | (.noFuel, c') => (.noFuel, c')

/-- `self.tokens[i]` with the `i32 as usize` conversion: a negative or
out-of-range index panics. -/
def tokGet (i : Int) : PM Token := fun ts c =>
  if i < 0 then (.panicked, c)
  else
    match ts.get? i.toNat with
    | some t => (.ok t, c)
    | none => (.panicked, c)

/-- `Parser::peek`. -/
def peek : PM Token := do
  let c ← getCur
  tokGet c

/-- `Parser::is_white_space`. The scanner never produces these kinds. -/
def isWhiteSpace (token : TokenType) : Bool :=
  match token with
  | .Space => true
  | .CarriageReturn => true
  | .Tab => true
  | .NewLine => true
  | _ => false

/-- The backward walk of `Parser::previous`; the fuel chosen by
`previous` exceeds the number of possible iterations (the index goes
negative — a panic — after at most `current + 1` steps). -/
def previousAux : Nat → Int → PM Token
  | 0, _ => noFuelP
  | n + 1, prevCurrent => do
    let c ← getCur
    let prev ← tokGet (c - prevCurrent)
    if isWhiteSpace prev.ty then previousAux n (prevCurrent + 1) else pure prev

/-- `Parser::previous`. -/
def previous : PM Token := do
  let c ← getCur
  if 0 < c then previousAux (c.toNat + 2) 1 else tokGet c

/-- `Parser::is_end`. -/
def isEnd : PM Bool := do
  let t ← peek
  pure (t.ty = .EOF)

/-- The skipping loop of `Parser::skip_white_space`; each iteration moves
the cursor right, so the token count bounds the iterations (then `peek`
panics). -/
def skipWhiteSpaceAux : Nat → PM Unit
  | 0 => noFuelP
  | n + 1 => do
    let t ← peek
    if isWhiteSpace t.ty then do
      let c ← getCur
      setCur (c + 1)
      skipWhiteSpaceAux n
    else pure ()

/-- `Parser::skip_white_space` (including the source's dead re-check
after the loop). -/
def skipWhiteSpace : PM Unit := do
  let ts ← getTokens
  skipWhiteSpaceAux (ts.length + 2)
  let t ← peek
  if isWhiteSpace t.ty then do
    let c ← getCur
    setCur (c + 1)
  else pure ()

/-- `Parser::check`. -/
def check (ty : TokenType) : PM Bool := do
  let e ← isEnd
  if e then pure false
  else do
    let t ← peek
    pure (t.ty = ty)

/-- `Parser::advance`. -/
def advance : PM Token := do
  let e ← isEnd
  if !e then do
    let c ← getCur
    setCur (c + 1)
  else pure ()
  skipWhiteSpace
  previous

/-- `Parser::consume`. -/
def consume (ty : TokenType) (errorMessage : String) : PM Token := do
  skipWhiteSpace
  let ok ← check ty
  if ok then advance
  else do
    let token ← previous
    throwP (.consumeTokenError token.line token.lexeme errorMessage)

/-- The list walk of `Parser::match_type`. -/
def matchTypeAux : List TokenType → PM Bool
  | [] => pure false
  | ty :: rest => do
    let c ← check ty
    if c then do
      let _ ← advance
      pure true
    else matchTypeAux rest

/-- `Parser::match_type`. -/
def matchType (types : List TokenType) : PM Bool := do
  skipWhiteSpace
  matchTypeAux types

/-- Digit accumulation for `parseFloat`. -/
def parseDigitsAux : List Char → Nat → Option Nat
  | [], acc => some acc
  | c :: rest, acc =>
    if Scanner.isDigit c then parseDigitsAux rest (acc * 10 + (c.toNat - '0'.toNat))
    else none

/-- The `str::parse::<f32>` call of `Parser::primary` on a number
literal, for the texts the scanner produces (digits with an optional
midpoint dot): integer and fractional part as an exact rational. -/
def parseFloat (s : String) : Option Rat :=
  match s.toList.splitOn '.' with
  | [ds] =>
    if ds.isEmpty then none
    else (parseDigitsAux ds 0).map (fun n => (n : Rat))
  | [ds, fs] =>
    if ds.isEmpty && fs.isEmpty then none
    else
      match parseDigitsAux ds 0, parseDigitsAux fs 0 with
      | some i, some f => some ((i : Rat) + (f : Rat) / ((10 : Rat) ^ fs.length))
      | _, _ => none
  | _ => none

mutual

/-- `Parser::parse`: run `declaration` until `EOF`, collecting the
produced statements; the source always answers `Ok(Some(statements))` on
success. -/
def parse : Nat → PM (Option (List Statement))
  | 0 => noFuelP
  | n + 1 => do
    let stmts ← parseLoop n
    pure (some stmts)

/-- The statement loop of `Parser::parse`. -/
def parseLoop : Nat → PM (List Statement)
  | 0 => noFuelP
  | n + 1 => do
    let e ← isEnd
    if e then pure []
    else do
      let dec ← declaration n
      let rest ← parseLoop n
      match dec with
      | some d => pure (d :: rest)
      | none => pure rest

/-- `Parser::declaration`. -/
def declaration : Nat → PM (Option Statement)
  | 0 => noFuelP
  | n + 1 => do
    if ← matchType [.FUN] then do
      let s ← functionDeclaration n "function"
      pure (some s)
    else if ← matchType [.VAR] then varDeclaration n
    else statement n

/-- `Parser::function_declaration` (the dropped `Result`s of the
`RightParen`/`LeftBrace` consumes are modelled by `tryP`). -/
def functionDeclaration : Nat → String → PM Statement
  | 0, _ => noFuelP
  | n + 1, kind => do
    let c0 ← getCur
    let name ← consume .Ident ("Expect " ++ kind ++ " name.")
    let _ ← consume .LeftParen ("Expect '(' after " ++ kind ++ " name.)")
    let rp ← check .RightParen
    let parameters ← if !rp then paramsLoop n [] else pure []
    tryP (consume .RightParen "Expect ')' after parameters")
    tryP (consume .LeftBrace ("Expect '\x7b' before " ++ kind ++ " body"))
    let body ← blockStatementP n
    let c1 ← getCur
    pure (.function ⟨c0, c1⟩ name parameters body)

/-- The parameter loop of `Parser::function_declaration`. -/
def paramsLoop : Nat → List Token → PM (List Token)
  | 0, _ => noFuelP
  | n + 1, acc => do
    if 255 ≤ acc.length then do
      let t ← peek
      throwP (.maxArguments t)
    else do
      let p ← consume .Ident "Expect parameter name."
      let cm ← matchType [.Comma]
      if cm then paramsLoop n (acc ++ [p]) else pure (acc ++ [p])

/-- `Parser::var_declaration` (an uninitialized variable gets a `Nil`
literal initializer; the misspelled message is the source's). -/
def varDeclaration : Nat → PM (Option Statement)
  | 0 => noFuelP
  | n + 1 => do
    let c0 ← getCur
    let name ← consume .Ident "Expected variable name."
    if ← matchType [.Equal] then do
      match ← expression n with
      | some expr => do
        let _ ← consume .Semicolon "Expect ';' after variable declaration."
        let c1 ← getCur
        pure (some (.var ⟨c0, c1⟩ name (some expr)))
      | none => throwP (.varMissingExpr name)
    else do
      let _ ← consume .Semicolon "Expected ';' after unintialized variable."
      let c1 ← getCur
      pure (some (.var ⟨c0, c1⟩ name (some (.literal ⟨c0, c1⟩ (some .nil)))))

/-- `Parser::statement`: dispatch on the leading token. -/
def statement : Nat → PM (Option Statement)
  | 0 => noFuelP
  | n + 1 => do
    let c0 ← getCur
    if ← matchType [.LeftBrace] then do
      let c1 ← getCur
      let stmts ← blockStatementP n
      pure (some (.block ⟨c0, c1⟩ stmts))
    else if ← matchType [.IF] then do
      let s ← ifStatementP n
      pure (some s)
    else if ← matchType [.PRINT] then printStatementP n
    else if ← matchType [.RETURN] then returnStatementP n
    else if ← matchType [.WHILE] then whileStatementP n
    else if ← matchType [.FOR] then forStatementP n
    else expressionStatementP n

/-- `Parser::return_statement` (no value or no expression yields
`Ok(None)`; the semicolon consume's `Result` is dropped). -/
def returnStatementP : Nat → PM (Option Statement)
  | 0 => noFuelP
  | n + 1 => do
    let c0 ← getCur
    let keyword ← previous
    let sc ← matchType [.Semicolon]
    if !sc then do
      match ← expression n with
      | some value => do
        tryP (consume .Semicolon "Expect ';' after return value")
        let c1 ← getCur
        pure (some (.ret ⟨c0, c1⟩ keyword value))
      | none => pure none
    else pure none

/-- `Parser::for_statement`: parse the three clauses and desugar into
nested `Block`/`While` statements exactly as the source does. -/
def forStatementP : Nat → PM (Option Statement)
  | 0 => noFuelP
  | n + 1 => do
    let c0 ← getCur
    tryP (consume .LeftParen "Expected '(' after 'for'.")
    let initializer ←
      (do
        if ← matchType [.Semicolon] then pure none
        else if ← matchType [.VAR] then varDeclaration n
        else expressionStatementP n)
    let ck ← check .Semicolon
    let condition ← if !ck then expression n else pure none
    tryP (consume .Semicolon "Expect ';' after loop condition.")
    let ck2 ← check .RightParen
    let increment ← if !ck2 then expression n else pure none
    tryP (consume .RightParen "Expect ')' after for clause.")
    let body0 ← statement n
    let c1 ← getCur
    let body1 :=
      match increment, body0 with
      | some inc, some bdy => some (Statement.block ⟨c0, c1⟩ [bdy, .expression ⟨c0, c1⟩ inc])
      | _, b => b
    let body2 :=
      match condition, body1 with
      | some con, some bdy => some (Statement.whileS ⟨c0, c1⟩ con bdy)
      | none, some bdy =>
        some (Statement.whileS ⟨c0, c1⟩ (.literal ⟨c0, c1⟩ (some (.bool true))) bdy)
      | _, none => none
    let body3 :=
      match initializer, body2 with
      | some init, some bdy => some (Statement.block ⟨c0, c1⟩ [init, bdy])
      | _, b => b
    pure body3

/-- `Parser::while_statement`. -/
def whileStatementP : Nat → PM (Option Statement)
  | 0 => noFuelP
  | n + 1 => do
    let c0 ← getCur
    tryP (consume .LeftParen "Expect '(' after 'while'.")
    match ← expression n with
    | some condition => do
      tryP (consume .RightParen "Expected ')' after condition.")
      match ← statement n with
      | some body => do
        let c1 ← getCur
        pure (some (.whileS ⟨c0, c1⟩ condition body))
      | none => throwP (.whileMissingBody condition)
    | none => do
      let p ← previous
      throwP (.whileMissingCondition p)

/-- `Parser::if_statement`. -/
def ifStatementP : Nat → PM Statement
  | 0 => noFuelP
  | n + 1 => do
    let c0 ← getCur
    tryP (consume .LeftParen "Expected '(' after 'if'.")
    match ← expression n with
    | some condition => do
      tryP (consume .RightParen "Expected ')' after if condition.")
      match ← statement n with
      | some thenBranch => do
        if ← matchType [.ELSE] then do
          match ← statement n with
          | some els => do
            let c1 ← getCur
            pure (.ifS ⟨c0, c1⟩ condition thenBranch (some els))
          | none => throwP (.missingThenBranch condition)
        else do
          let c1 ← getCur
          pure (.ifS ⟨c0, c1⟩ condition thenBranch none)
      | none => throwP (.missingThenBranch condition)
    | none => do
      let p ← previous
      throwP (.missingIfCondition p)

/-- `Parser::block_statement`: declarations until `}`/EOF, then the
closing brace (this consume *is* propagated with `?`). -/
def blockStatementP : Nat → PM (List Statement)
  | 0 => noFuelP
  | n + 1 => do
    let stmts ← blockLoop n
    let _ ← consume .RightBrace "Expected '\x7d' after block."
    pure stmts

/-- The declaration loop of `Parser::block_statement`. -/
def blockLoop : Nat → PM (List Statement)
  | 0 => noFuelP
  | n + 1 => do
    let rb ← check .RightBrace
    let e ← isEnd
    if !rb && !e then do
      match ← declaration n with
      | some d => do
        let rest ← blockLoop n
        pure (d :: rest)
      | none => blockLoop n
    else pure []

/-- `Parser::print_statement` (the semicolon consume is propagated). -/
def printStatementP : Nat → PM (Option Statement)
  | 0 => noFuelP
  | n + 1 => do
    let c0 ← getCur
    match ← expression n with
    | some expr => do
      let _ ← consume .Semicolon "Expect ';' after value."
      let c1 ← getCur
      pure (some (.print ⟨c0, c1⟩ expr))
    | none => do
      let p ← previous
      throwP (.printNoExpression p)

/-- `Parser::expression_statement` (the semicolon consume's `Result` is
dropped; no expression yields `Ok(None)`). -/
def expressionStatementP : Nat → PM (Option Statement)
  | 0 => noFuelP
  | n + 1 => do
    let c0 ← getCur
    match ← expression n with
    | some expr => do
      tryP (consume .Semicolon "Expected ';' after expression statement.")
      let c1 ← getCur
      pure (some (.expression ⟨c0, c1⟩ expr))
    | none => pure none

/-- `Parser::expression`. -/
def expression : Nat → PM (Option Expr)
  | 0 => noFuelP
  | n + 1 => do
    match ← assignment n with
    | some expr => pure (some expr)
    | none => pure none

/-- `Parser::assignment`: right-associative; the target must be a
`Variable`; a trailing semicolon right after the value is consumed here. -/
def assignment : Nat → PM (Option Expr)
  | 0 => noFuelP
  | n + 1 => do
    let c0 ← getCur
    match ← logicOr n with
    | some expr => do
      if ← matchType [.Equal] then do
        let equals ← previous
        match ← assignment n with
        | some value =>
          match expr with
          | .variable _ name => do
            let t ← peek
            if t.ty = .Semicolon then do
              let _ ← consume .Semicolon "Expect ';' after variable assignment."
              pure ()
            else pure ()
            let c1 ← getCur
            pure (some (.assign ⟨c0, c1⟩ name value))
          | _ => throwP (.unexpectedAssignmentTarget equals)
        | none => throwP (.invalidAssignmentTarget equals)
      else pure (some expr)
    | none => pure none

/-- `Parser::logic_or` (the source returns on the first `or`). -/
def logicOr : Nat → PM (Option Expr)
  | 0 => noFuelP
  | n + 1 => do
    let c0 ← getCur
    match ← logicAnd n with
    | some expr => do
      if ← matchType [.OR] then do
        let operator ← previous
        match ← logicAnd n with
        | some right => do
          let c1 ← getCur
          pure (some (.logcial ⟨c0, c1⟩ expr operator right))
        | none => throwP (.logicOrMissingRight expr)
      else pure (some expr)
    | none => pure none

/-- `Parser::logic_and` (the source returns on the first `and`). -/
def logicAnd : Nat → PM (Option Expr)
  | 0 => noFuelP
  | n + 1 => do
    let c0 ← getCur
    match ← equality n with
    | some expr => do
      if ← matchType [.AND] then do
        let operator ← previous
        match ← equality n with
        | some right => do
          let c1 ← getCur
          pure (some (.logcial ⟨c0, c1⟩ expr operator right))
        | none => throwP (.logicAndMissingRight expr)
      else pure (some expr)
    | none => pure none

/-- `Parser::equality`. -/
def equality : Nat → PM (Option Expr)
  | 0 => noFuelP
  | n + 1 => do
    let c0 ← getCur
    match ← comparison n with
    | some expr => equalityLoop n c0 expr
    | none => pure none

/-- The operator loop of `Parser::equality` (a successful operand returns
immediately; a missing right operand retries the loop). -/
def equalityLoop : Nat → Int → Expr → PM (Option Expr)
  | 0, _, _ => noFuelP
  | n + 1, c0, expr => do
    if ← matchType [.BangEqual, .EqualEqual] then do
      let operator ← previous
      match ← comparison n with
      | some right => do
        let c1 ← getCur
        pure (some (.binary ⟨c0, c1⟩ expr operator right))
      | none => equalityLoop n c0 expr
    else pure (some expr)

/-- `Parser::comparison`. -/
def comparison : Nat → PM (Option Expr)
  | 0 => noFuelP
  | n + 1 => do
    let c0 ← getCur
    match ← term n with
    | some expr => comparisonLoop n c0 expr
    | none => pure none

/-- The operator loop of `Parser::comparison`. The matched list is the
source's: `Greater, LessEqual, Less, LessEqual` — `LessEqual` appears
twice and `GreaterEqual` is absent. -/
def comparisonLoop : Nat → Int → Expr → PM (Option Expr)
  | 0, _, _ => noFuelP
  | n + 1, c0, expr => do
    if ← matchType [.Greater, .LessEqual, .Less, .LessEqual] then do
      let operator ← previous
      match ← term n with
      | some right => do
        let c1 ← getCur
        comparisonLoop n c0 (.binary ⟨c0, c1⟩ expr operator right)
      | none => comparisonLoop n c0 expr
    else pure (some expr)

/-- `Parser::term`. -/
def term : Nat → PM (Option Expr)
  | 0 => noFuelP
  | n + 1 => do
    let c0 ← getCur
    match ← factor n with
    | some expr => termLoop n c0 expr
    | none => pure none

/-- The operator loop of `Parser::term`. -/
def termLoop : Nat → Int → Expr → PM (Option Expr)
  | 0, _, _ => noFuelP
  | n + 1, c0, expr => do
    if ← matchType [.Minus, .Plus] then do
      let operator ← previous
      match ← factor n with
      | some right => do
        let c1 ← getCur
        termLoop n c0 (.binary ⟨c0, c1⟩ expr operator right)
      | none => termLoop n c0 expr
    else pure (some expr)

/-- `Parser::factor`. -/
def factor : Nat → PM (Option Expr)
  | 0 => noFuelP
  | n + 1 => do
    let c0 ← getCur
    match ← unaryP n with
    | some expr => factorLoop n c0 expr
    | none => pure none

/-- The operator loop of `Parser::factor`. -/
def factorLoop : Nat → Int → Expr → PM (Option Expr)
  | 0, _, _ => noFuelP
  | n + 1, c0, expr => do
    if ← matchType [.Slash, .Star] then do
      let operator ← previous
      match ← unaryP n with
      | some right => do
        let c1 ← getCur
        factorLoop n c0 (.binary ⟨c0, c1⟩ expr operator right)
      | none => factorLoop n c0 expr
    else pure (some expr)

/-- `Parser::unary` (the source parses `call` first and then an optional
postfix `!`/`-` with a recursive operand). -/
def unaryP : Nat → PM (Option Expr)
  | 0 => noFuelP
  | n + 1 => do
    let c0 ← getCur
    match ← callP n with
    | some expr => do
      if ← matchType [.Bang, .Minus] then do
        let operator ← previous
        match ← unaryP n with
        | some right => do
          let c1 ← getCur
          pure (some (.unary ⟨c0, c1⟩ operator right))
        | none => pure (some expr)
      else pure (some expr)
    | none => pure none

/-- `Parser::call`. -/
def callP : Nat → PM (Option Expr)
  | 0 => noFuelP
  | n + 1 => do
    let c0 ← getCur
    match ← primary n with
    | some expr => callLoop n c0 expr
    | none => pure none

/-- The call-site loop of `Parser::call`. -/
def callLoop : Nat → Int → Expr → PM (Option Expr)
  | 0, _, _ => noFuelP
  | n + 1, c0, expr => do
    if ← matchType [.LeftParen] then do
      let e' ← finishCall n c0 expr
      callLoop n c0 e'
    else pure (some expr)

/-- `Parser::finish_call`. -/
def finishCall : Nat → Int → Expr → PM Expr
  | 0, _, _ => noFuelP
  | n + 1, c0, expr => do
    let ck ← check .RightParen
    let arguments ← if !ck then argsLoop n [] else pure []
    let paren ← consume .RightParen "Expected ')' after arguments."
    let c1 ← getCur
    pure (.call ⟨c0, c1⟩ expr paren arguments)

/-- The argument loop of `Parser::finish_call` (the 255 check precedes
the push, after the expression parse). -/
def argsLoop : Nat → List Expr → PM (List Expr)
  | 0, _ => noFuelP
  | n + 1, acc => do
    let acc' ←
      (do
        match ← expression n with
        | some ex =>
          if 255 ≤ acc.length then do
            let t ← peek
            throwP (.maxArguments t)
          else pure (acc ++ [ex])
        | none => pure acc)
    if ← matchType [.Comma] then argsLoop n acc' else pure acc'

/-- The shared tail of `Parser::primary`: the `Ident` check and the final
`EOF`-or-error test (also reached when a `(`-group contains no
expression, since the source falls through in that case). -/
def primaryIdentOrTail (c0 : Int) : PM (Option Expr) := do
  if ← matchType [.Ident] then do
    let c1 ← getCur
    let p ← previous
    pure (some (.variable ⟨c0, c1⟩ p))
  else do
    let token ← peek
    if token.ty = .EOF then pure none
    else throwP (.primaryTokenError token.line token.lexeme "Expected expression.")

/-- `Parser::primary`: literals, groupings, identifiers; a number token's
text is `unwrap`ped and parsed (panicking on failure, as the source's
`unwrap`s do). -/
def primary : Nat → PM (Option Expr)
  | 0 => noFuelP
  | n + 1 => do
    let c0 ← getCur
    if ← matchType [.FALSE] then do
      let c1 ← getCur
      pure (some (.literal ⟨c0, c1⟩ (some (.bool false))))
    else if ← matchType [.TRUE] then do
      let c1 ← getCur
      pure (some (.literal ⟨c0, c1⟩ (some (.bool true))))
    else if ← matchType [.NIL] then do
      let c1 ← getCur
      pure (some (.literal ⟨c0, c1⟩ (some .nil)))
    else if ← matchType [.NumberLit] then do
      let p ← previous
      match p.literal with
      | some litText =>
        match parseFloat litText with
        | some f => do
          let c1 ← getCur
          pure (some (.literal ⟨c0, c1⟩ (some (.float f))))
        | none => panicP
      | none => panicP
    else if ← matchType [.StringLit] then do
      let p ← previous
      match p.literal with
      | some litText => do
        let c1 ← getCur
        pure (some (.literal ⟨c0, c1⟩ (some (.str litText))))
      | none => panicP
    else if ← matchType [.LeftParen] then do
      match ← expression n with
      | some expr => do
        let _ ← consume .RightParen "Expected ')' after expression."
        let c1 ← getCur
        pure (some (.grouping ⟨c0, c1⟩ expr))
      | none => primaryIdentOrTail c0
    else primaryIdentOrTail c0

end

/-- `Parser::new` (cursor at 0) followed by `Parser::parse`. -/
def parseTokens (fuel : Nat) (tokens : List Token) : POut (Option (List Statement)) × Int :=
  parse fuel tokens 0

end LoxParser

/-! Concrete programs used by the theorems below (AST fixtures, built the
way `Parser::parse` would build them, with inessential spans). -/

/-- A fixed span for fixture AST nodes (spans never affect evaluation). -/
def sp0 : Span := ⟨0, 0⟩

/-- An identifier token fixture. -/
def identTok (x : String) : Token := ⟨.Ident, x, none, 1⟩

/-- A literal expression fixture. -/
def litE (v : LitType) : Expr := .literal sp0 (some v)

/-- A variable expression fixture. -/
def varE (x : String) : Expr := .variable sp0 (identTok x)

/-- A closing-parenthesis token fixture (the `paren` of a call). -/
def parenTok : Token := ⟨.RightParen, ")", none, 1⟩

/-- A call-expression fixture `x(args)`. -/
def callE (x : String) (args : List Expr) : Expr := .call sp0 (varE x) parenTok args

/-- An assignment-expression fixture `x = v`. -/
def assignE (x : String) (v : Expr) : Expr := .assign sp0 (identTok x) v

/-- Operator token fixtures. -/
def plusTok : Token := ⟨.Plus, "+", none, 1⟩

/-- The `==` token fixture. -/
def eqeqTok : Token := ⟨.EqualEqual, "==", none, 1⟩

/-- The `!=` token fixture. -/
def bangEqTok : Token := ⟨.BangEqual, "!=", none, 1⟩

/-- A binary expression fixture. -/
def binE (l : Expr) (op : Token) (r : Expr) : Expr := .binary sp0 l op r

/-- An expression statement fixture. -/
def exprStmt (e : Expr) : Statement := .expression sp0 e

/-- A print statement fixture. -/
def printStmt (e : Expr) : Statement := .print sp0 e

/-- A `var x = e;` statement fixture. -/
def varDecl (x : String) (e : Expr) : Statement := .var sp0 (identTok x) (some e)

/-- A `fun f(ps) { body }` statement fixture. -/
def funDecl (f : String) (ps : List String) (body : List Statement) : Statement :=
  .function sp0 (identTok f) (ps.map identTok) body

/-- A `return e;` statement fixture. -/
def retStmt (e : Expr) : Statement := .ret sp0 ⟨.RETURN, "return", none, 1⟩ e

/-- The block `{ var x = 1; }` (claim C1). -/
def c1Block : Statement := .block sp0 [varDecl "x" (litE (.float 1))]

/-- The declaration `fun f(){ while(true){ return 1; } return 2; }`
(claim C2, the spec's §8.7 example). -/
def c2Fun : Statement :=
  funDecl "f" []
    [.whileS sp0 (litE (.bool true)) (.block sp0 [retStmt (litE (.float 1))]),
     retStmt (litE (.float 2))]

/-- The program `fun f(){ while(true){ return 1; } return 2; } f();`. -/
def c2Prog : List Statement := [c2Fun, exprStmt (callE "f" [])]

/-- The program `var a = <u>; fun f(){ print a; } { var a = <w>; f(); }`
(claim C3): under declaration-time capture the call would print `u`,
under call-time parenting it prints `w`. -/
def c3Prog (u w : LitType) : List Statement :=
  [varDecl "a" (litE u),
   funDecl "f" [] [printStmt (varE "a")],
   .block sp0 [varDecl "a" (litE w), exprStmt (callE "f" [])]]

/-- The program `var x = <a>; fun f(p){ print p; } f(x = x + "!");`
(claim C7): the argument is an assignment whose side effect counts the
evaluations of the argument expression. -/
def c7Prog (a : String) : List Statement :=
  [varDecl "x" (litE (.str a)),
   funDecl "f" ["p"] [printStmt (varE "p")],
   exprStmt (callE "f" [assignE "x" (binE (varE "x") plusTok (litE (.str "!")))])]

/-- The expression `1 == 2` (claim C5). -/
def c5EqE : Expr := binE (litE (.float 1)) eqeqTok (litE (.float 2))

/-- The expression `1 != 2` (claim C5). -/
def c5NeqE : Expr := binE (litE (.float 1)) bangEqTok (litE (.float 2))

/-- The token stream of `print 2 >= 1;` exactly as `Scanner::scan_tokens`
produces it (claim C6). -/
def c6Tokens : List Token :=
  [⟨.PRINT, "print", none, 1⟩, ⟨.NumberLit, "2", some "2", 1⟩,
   ⟨.GreaterEqual, ">=", none, 1⟩, ⟨.NumberLit, "1", some "1", 1⟩,
   ⟨.Semicolon, ";", none, 1⟩, ⟨.EOF, "", none, 1⟩]

/-- Looking a key up right after inserting it yields the inserted value
(association-list form of `HashMap` insert/get). -/
theorem lookupA_insertA (l : List (String × LitType)) (k : String) (v : LitType) :
    lookupA (insertA l k v) k = some v := by
  induction l with
  | nil => simp [insertA, lookupA]
  | cons hd tl ih =>
    by_cases h : hd.1 = k
    · simp [insertA, lookupA, h]
    · simp [insertA, lookupA, h, ih]

/-- C1. The claim: a `Block` statement restores the previously current
environment on every exit path, so after the block the interpreter's
environment equals the pre-block one. The code (`block_statement`,
`interpreter.rs` 357–371) overwrites `self.environment` with the fresh
child and never restores it: running `{ var x = 1; }` from the `build()`
state ends with the child environment (binding `x`, and with the old
environment as its parent) as current — which differs from the pre-block
environment. -/
theorem spec_C1_counterexample :
    (Interp.evaluateStatement 9 Interp.build c1Block).2.environment
        = Environment.link [("x", .float 1)] Interp.build.environment
      ∧ (Interp.evaluateStatement 9 Interp.build c1Block).1 = .ok none
      ∧ Environment.link [("x", .float 1)] Interp.build.environment
          ≠ Interp.build.environment := by
  refine ⟨rfl, rfl, ?_⟩
  intro h
  exact Environment.noConfusion h

/-- C1 (amended). A `Block` statement makes a fresh child of the current
environment current, runs the inner statements in it, and leaves the
resulting child environment current — the previous environment is *not*
restored; it survives only as the child's parent. Stated for a block with
one `var` declaration with a literal initializer, generally in the
starting state, the name and the value. -/
theorem spec_C1 (n : Nat) (s : Interp.InterpS) (x : String) (v : LitType) :
    Interp.evaluateStatement (n + 6) s (.block sp0 [varDecl x (litE v)])
      = (.ok none,
         { s with environment := Environment.link [(x, v)] s.environment }) := rfl

/-- C2. The claim: a `return` in a function body unwinds to the call
frame, is caught there, and its value becomes the call's result, never
surfacing to the user. The code raises `RuntimeError::Return` but *no*
code path catches it (`LoxFunction::call` propagates it with `?`), so
running `fun f(){ while(true){ return 1; } return 2; } f();` makes the
call statement fail and `run` reports the `Return(1.0)` signal itself to
stderr — the call never yields `1`. -/
theorem spec_C2 :
    (Interp.runStmts 20 Interp.build c2Prog).errsOf = some [.ret (.float 1)] := rfl

/-- C3. The claim: a declared function captures the declaration-time
environment and each call frame is a child of that captured environment.
In the code `LoxFunction` stores no environment at all and
`LoxFunction::call` parents the frame on `inter.environment` — the
environment current at *call* time. In
`var a = "global"; fun f(){ print a; } { var a = "local"; f(); }`
declaration-time capture would print `"global"`; the code prints
`"local"`. -/
theorem spec_C3_counterexample :
    (Interp.runStmts 20 Interp.build
        (c3Prog (.str "global") (.str "local"))).stateOf.map Interp.InterpS.printed
        = some [.str "local"]
      ∧ "local" ≠ "global" := ⟨rfl, by decide⟩

/-- C3 (amended). A declared function stores only its name and
declaration; every call builds its frame as a child of the environment
current at call time. Consequence, stated generally in the two values: in
`var a = <u>; fun f(){ print a; } { var a = <w>; f(); }` the call prints
the block-local `w` (declaration-time capture would print `u`). -/
theorem spec_C3 (u w : LitType) :
    (Interp.runStmts 20 Interp.build (c3Prog u w)).stateOf.map Interp.InterpS.printed
      = some [w] := rfl

/-- C4. The claim: truthiness is false exactly for `Nil` and
`Bool(false)`; `0`, negative numbers, the empty string and callables are
truthy. The code's `is_truthy` (`interpreter.rs` 285–305) classifies
`Float(0.0)` as *false* — and `0.0` is neither `Nil` nor `Bool(false)`. -/
theorem spec_C4_counterexample :
    Interp.isTruthy (.float 0) = false
      ∧ LitType.float 0 ≠ .nil
      ∧ LitType.float 0 ≠ .bool false := by
  refine ⟨rfl, ?_, ?_⟩ <;> intro h <;> exact LitType.noConfusion h

/-- C4 (amended). `is_truthy` classifies a value as false exactly when it
is `Nil`, `Bool(false)`, a number `≤ 0`, an empty string, or a callable;
this classification governs `if` conditions, `while` conditions and
short-circuit `and`/`or` (unary `!` does not use it: it accepts only
`Bool`/`Nil` operands and errors otherwise). -/
theorem spec_C4 (v : LitType) :
    Interp.isTruthy v = false ↔
      v = .nil ∨ v = .bool false ∨ (∃ f, v = .float f ∧ f ≤ 0) ∨
        (∃ s, v = .str s ∧ s.length = 0) ∨ (∃ c, v = .callable c) := by
  cases v with
  | float f => simp [Interp.isTruthy, not_lt]
  | str s => simp [Interp.isTruthy]
  | bool b => simp [Interp.isTruthy]
  | callable c => simp [Interp.isTruthy]
  | nil => simp [Interp.isTruthy]

/-- C5. The claim: whenever `a == b` yields a `Bool`, `a != b` succeeds
with its negation — in particular `1 != 2` yields `Bool(true)`. In
`binary_expr` the two-numbers branch handles `==` but `!=` falls into the
`InvalidNumerical` catch-all: `1 == 2` evaluates to `Bool(false)` while
`1 != 2` is a runtime error. -/
theorem spec_C5 :
    Interp.evaluateExpr 3 Interp.build c5EqE = (.ok (.bool false), Interp.build)
      ∧ Interp.evaluateExpr 3 Interp.build c5NeqE
          = (.err (.invalidNumerical c5NeqE bangEqTok), Interp.build) := ⟨rfl, rfl⟩

/-- C6. The claim: the parser accepts `term >= term` at the comparison
level, producing a `GreaterEqual` binary — e.g. `print 2 >= 1;` parses.
`Parser::comparison` matches `Greater, LessEqual, Less, LessEqual`
(`LessEqual` twice, `GreaterEqual` missing), so the scanner's token
stream for `print 2 >= 1;` is rejected: the `>=` token is never consumed
and the `print` statement fails consuming its semicolon. -/
theorem spec_C6 :
    Scanner.scan "print 2 >= 1;".toList = .ok c6Tokens
      ∧ LoxParser.parseTokens 100 c6Tokens
          = (.err (.consumeTokenError 1 "2" "Expect ';' after value."), 2) := ⟨rfl, rfl⟩

/-- C7. The claim: each argument expression of a call is evaluated
exactly once, and the parameters are bound to those single evaluations.
The code evaluates every argument in `call_expr` (into a vector it then
ignores) and `LoxFunction::call` evaluates the argument expressions a
*second* time when binding parameters: in
`var x = "a"; fun f(p){ print p; } f(x = x + "!");` the parameter prints
as `"a!!"` — the side effect ran twice — where the claim predicts
`"a!"`. -/
theorem spec_C7_counterexample :
    (Interp.runStmts 20 Interp.build (c7Prog "a")).stateOf.map Interp.InterpS.printed
        = some [.str "a!!"]
      ∧ "a!!" ≠ "a!" := ⟨rfl, by decide⟩

/-- C7 (amended). Call evaluation evaluates the callee, then each
argument left to right into a vector the source discards; a user
function's call frame then re-evaluates each argument expression once
more when binding its parameters, so argument side effects occur twice
per call. Stated generally in the initial string: running
`var x = <a>; fun f(p){ print p; } f(x = x + "!");` prints `a ++ "!" ++
"!"` (two evaluations), while the final binding of `x` is `a ++ "!"` —
the frame's parent is a clone of the caller's environment taken before
the re-evaluation, so the caller-visible `x` keeps the value of the
first evaluation. -/
theorem spec_C7 (a : String) :
    (Interp.runStmts 20 Interp.build (c7Prog a)).stateOf.map Interp.InterpS.printed
        = some [.str ((a ++ "!") ++ "!")]
      ∧ (Interp.runStmts 20 Interp.build (c7Prog a)).stateOf.map
            (fun sF => Environment.get sF.environment (identTok "x") "NO SPAN")
          = some (.ok (some (.str (a ++ "!")))) := ⟨rfl, rfl⟩

/-- C8. The claim: on any environment, `define(x, v)` followed
immediately by `get(x)` returns `v`. `define` inserts into the current
scope's map and `get` finds it there before consulting the parent. -/
theorem spec_C8 (env : Environment) (t : Token) (v : LitType) (sp : String) :
    (env.define t.lexeme v).get t sp = .ok (some v) := by
  cases env with
  | base values => simp [Environment.define, Environment.get, lookupA_insertA]
  | link values enc => simp [Environment.define, Environment.get, lookupA_insertA]

/-- C9. The claim: `scan` is total on every UTF-8 source — token list or
`ScannerError`, never a panic. The scanner compares its cursor against
the *byte* length but indexes *characters* with it
(`is_end` vs `chars().nth`): on the three-character, four-byte source
`//é` the comment loop's `peek` reaches character index 3 with
`is_end` still false, and the `unwrap` panics. -/
theorem spec_C9 : Scanner.scan ['/', '/', 'é'] = .panicked := rfl

/-- C10. The claim: when a `while` body's statement evaluates to a value
(e.g. a bare expression statement), the loop returns that value after the
first iteration even though the condition is still truthy, and it
continues only when the body yields no value. This is exactly
`while_statement`'s behaviour: one unfolding under a truthy condition
either returns the body's value or recurses. -/
theorem spec_C10 (n : Nat) (s s1 s2 : Interp.InterpS) (cond : Expr) (body : Statement)
    (c : LitType) (out : Interp.EOut (Option LitType))
    (hc : Interp.evaluateExpr n s cond = (.ok c, s1))
    (ht : Interp.isTruthy c = true)
    (hb : Interp.evaluateStatement n s1 body = (out, s2)) :
    (∀ v, out = .ok (some v) →
        Interp.whileStatement (n + 1) s cond body = (.ok (some v), s2))
      ∧ (out = .ok none →
        Interp.whileStatement (n + 1) s cond body = Interp.whileStatement n s2 cond body) := by
  constructor
  · intro v hv
    subst hv
    simp [Interp.whileStatement, hc, ht, hb]
  · intro hv
    subst hv
    simp [Interp.whileStatement, hc, ht, hb]

/-- C10 (witness). `while (true) 1;` from the `build()` state: the body
is a bare expression statement evaluating to `1`, and the while statement
yields `1` after one iteration. -/
theorem spec_C10_witness :
    Interp.whileStatement 4 Interp.build (litE (.bool true)) (exprStmt (litE (.float 1)))
      = (.ok (some (.float 1)), Interp.build) :=
  (spec_C10 3 Interp.build Interp.build Interp.build (litE (.bool true))
      (exprStmt (litE (.float 1))) (.bool true) (.ok (some (.float 1)))
      rfl rfl rfl).1 (.float 1) rfl

end Rlok
